import Mathlib

/-!
Shallow embedding of `src/EndpointClient.ts` (HtmlRapier.HalcyonEndpointClient).

JavaScript values that can flow through the client are modelled by the
inductive type `JVal`.  A JavaScript object is a finite association list of
string keys (JS objects have unique keys and remember insertion order, which
an association list preserves).  `undefined` models the JavaScript value
`undefined`; property access distinguishes `undefined`/`null` receivers
(which throw a TypeError) from ordinary receivers.  `foreign` stands for a
value that is neither a primitive, an array, nor a plain object — e.g. a
`Date`, a `Blob`, or an object from another realm: truthy, but its
constructor is not the bare object constructor.

Throwing operations are modelled with `Option`/`Except`: `none`/`.error`
is a thrown exception, `some`/`.ok` a normal return.  Promise rejection
versus synchronous throw is modelled by where the failure appears: a
navigation operation's synchronous prefix returns `Except Failure
PendingRequest`, where `.ok` means "a well-formed request was handed to the
transport" and `.error` means "the operation threw before any request was
issued".
-/

inductive JVal where
  | undefined
  | jnull
  | bool (b : Bool)
  | num (n : Int)
  | str (s : String)
  | arr (elems : List JVal)
  | obj (fields : List (String × JVal))
  | foreign (tag : Nat)

namespace JVal

/-- The JavaScript test `v !== undefined`. -/
def isUndef : JVal → Bool
  | .undefined => true
  | _ => false

/-- Property access `v[k]` / `v.k`. Returns `none` when the receiver is
`null` or `undefined` (a thrown TypeError); on any other receiver it
returns the stored value for `k`, or `undefined` when the key is absent
(primitives and foreign objects have no own keys we track, so lookups on
them give `undefined`). -/
def getProp : JVal → String → Option JVal
  | .undefined, _ => none
  | .jnull, _ => none
  | .obj fields, k =>
      some (match fields.find? (fun kv => kv.1 = k) with
            | some kv => kv.2
            | none => .undefined)
  | _, _ => some .undefined

/-- The statement `delete v[k]`. On a plain object it removes the key; on
other receivers it is a no-op.  (In the source this is only ever executed
right after a successful property read on the same receiver, so the
`null`/`undefined` TypeError case cannot arise here.) -/
def deleteProp : JVal → String → JVal
  | .obj fields, k => .obj (fields.filter (fun kv => kv.1 ≠ k))
  | v, _ => v

/-- JavaScript truthiness of a value (`if (v)` / `v && …`). -/
def truthy : JVal → Bool
  | .undefined => false
  | .jnull => false
  | .bool b => b
  | .num n => n ≠ 0
  | .str s => s ≠ ""
  | _ => true

/-- The test `v.constructor === \x7b\x7d.constructor`: true exactly for plain
objects (arrays have the Array constructor, `Date`s/`Blob`s/foreign objects
their own constructors, primitives a wrapper constructor). -/
def isPlainObj : JVal → Bool
  | .obj _ => true
  | _ => false

/-- The own enumerable keys visited by `for (var key in v)`, in insertion
order, paired with their values: the fields of a plain object, the indices
of an array or a string, nothing for other values. -/
def ownKeys : JVal → List (String × JVal)
  | .obj fields => fields
  | .arr elems => elems.enum.map (fun p => (toString p.1, p.2))
  | .str s => s.data.enum.map (fun p => (toString p.1, .str (String.singleton p.2)))
  | _ => []

end JVal

/-- A transport response as consumed by the client: `ok`, `status`,
`statusText`, the `content-type` header (`headers.get` returns the header
value or `null`, here `Option String`), and the text body (`text()` resolved,
which `processResult` awaits before classifying). -/
structure Response where
  ok : Bool
  status : Nat
  statusText : String
  contentType : Option String
  body : String

/-- Every exception the embedded fragment of the client can throw.
The carried arguments are the data baked into the thrown object:
`unsupportedResponseType` carries the offending content header
("Unsupported response type " + header), `halError` the parsed server-error
document and the numeric status code, `genericError` the status code and
status text ("Generic server error with status " + status + " " +
statusText), `cannotFindRef` the missing relation name
("Cannot find ref ..."), `jsonParseError` a `JSON.parse` SyntaxError,
`missingContentType` the "Missing content-type" error of the second
embedded version of `parseResult`, and `typeError` a TypeError from
dereferencing `null`/`undefined`. -/
inductive Failure where
  | unsupportedResponseType (contentHeader : String)
  | missingContentType
  | halError (errorData : JVal) (statusCode : Nat)
  | genericError (status : Nat) (statusText : String)
  | jsonParseError
  | cannotFindRef (ref : String)
  | typeError

namespace HalEndpointClient

def halcyonJsonMimeType : String := "application/json+halcyon"

def jsonMimeType : String := "application/json"

/-- The mime check used by `parseResult`:
`contentHeader.length >= mime.length && contentHeader.substring(0, mime.length) === mime`,
i.e. a case-sensitive prefix match (compared on the character lists). -/
def mimePrefixTest (contentHeader mime : String) : Bool :=
  decide (mime.length ≤ contentHeader.length) &&
  decide (contentHeader.data.take mime.data.length = mime.data)

/-- The envelope `parseResult` synthesizes when the response has no
content-type header: an object whose `_links` and `_embedded` keys are
present but `undefined`. -/
def emptyEnvelope : JVal := .obj [("_links", .undefined), ("_embedded", .undefined)]

/-- `HalEndpointClient.parseResult` (the current version, the first in the
file).  `jsonParse` stands for the external `JSON.parse` primitive
(`.error` = thrown SyntaxError); the optional reviver is never passed by
this code.  Branches, in source order: a truthy content header that matches
the halcyon mime by prefix, or matches the generic json mime by prefix on a
non-ok response, parses the body (empty body parses to `null` without
calling `JSON.parse`); any other truthy header throws "Unsupported response
type"; a falsy header (`null` from `headers.get` or the empty string)
yields the synthesized empty envelope. -/
def parseResult (jsonParse : String → Except Unit JVal) (response : Response)
    (data : String) : Except Failure JVal :=
  match response.contentType with
  | some contentHeader =>
    if contentHeader = "" then
      .ok emptyEnvelope
    else if (mimePrefixTest contentHeader halcyonJsonMimeType
             || (mimePrefixTest contentHeader jsonMimeType && !response.ok)) then
      if data = "" then .ok .jnull
      else
        match jsonParse data with
        | .ok v => .ok v
        | .error _ => .error .jsonParseError
    else
      .error (.unsupportedResponseType contentHeader)
  | none => .ok emptyEnvelope

/-- `HalEndpointClient.parseResult`, second embedded version of the file
(after the separator): same mime test, but a missing content header throws,
and an unmatched content header on a non-ok response falls back to the
generic server error instead of "Unsupported response type". -/
def parseResult2 (jsonParse : String → Except Unit JVal) (response : Response)
    (data : String) : Except Failure JVal :=
  match response.contentType with
  | some contentHeader =>
    if contentHeader = "" then
      .error .missingContentType
    else if (mimePrefixTest contentHeader halcyonJsonMimeType
             || (mimePrefixTest contentHeader jsonMimeType && !response.ok)) then
      if data = "" then .ok .jnull
      else
        match jsonParse data with
        | .ok v => .ok v
        | .error _ => .error .jsonParseError
    else if !response.ok then
      .error (.genericError response.status response.statusText)
    else
      .error (.unsupportedResponseType contentHeader)
  | none => .error .missingContentType

end HalEndpointClient

/-- The state of one `HalEndpointClient` instance: `this.embeds`
(the value read from `data._embedded`), `this.links` (from `data._links`)
and `this.data` (the same document object after both `delete` statements).
The `fetcher` field of the source is an opaque transport handle that is
only stored and passed along; it plays no role in any modelled behaviour
and is elided. -/
structure HalClient where
  embeds : JVal
  links : JVal
  data : JVal

namespace HalEndpointClient

/-- The `HalEndpointClient` constructor:
`this.embeds = data._embedded; delete data._embedded;
this.links = data._links; delete data._links; this.data = data`.
`none` is the TypeError thrown when `data` is `null`/`undefined`.
The deletions mutate the caller's document in place; in this value-level
model the mutated document is exactly the `data` field of the result, and
callers that alias it (the embed machinery) read it back from there. -/
def construct (data : JVal) : Option HalClient :=
  match data.getProp "_embedded" with
  | none => none
  | some embeds =>
    let data1 := data.deleteProp "_embedded"
    match data1.getProp "_links" with
    | none => none
    | some links => some ⟨embeds, links, data1.deleteProp "_links"⟩

/-- `HalEndpointClient.processResult` (shared verbatim by both embedded
versions of the file, up to which `parseResult` it calls): await the body
text, parse it, and on `ok` construct a client, otherwise throw a
`HalError` when the parsed body has a defined `message` field and the
generic server error otherwise.  Dereferencing `.message` on a `null`
parsed body throws a TypeError. -/
def processResult (jsonParse : String → Except Unit JVal) (response : Response) :
    Except Failure HalClient :=
  match parseResult jsonParse response response.body with
  | .error f => .error f
  | .ok parsedData =>
    if response.ok then
      match construct parsedData with
      | some client => .ok client
      | none => .error .typeError
    else
      match parsedData.getProp "message" with
      | none => .error .typeError
      | some m =>
        if !m.isUndef then .error (.halError parsedData response.status)
        else .error (.genericError response.status response.statusText)

/-- `processResult` of the second embedded version: identical text, but it
calls that version's `parseResult`. -/
def processResult2 (jsonParse : String → Except Unit JVal) (response : Response) :
    Except Failure HalClient :=
  match parseResult2 jsonParse response response.body with
  | .error f => .error f
  | .ok parsedData =>
    if response.ok then
      match construct parsedData with
      | some client => .ok client
      | none => .error .typeError
    else
      match parsedData.getProp "message" with
      | none => .error .typeError
      | some m =>
        if !m.isUndef then .error (.halError parsedData response.status)
        else .error (.genericError response.status response.statusText)

end HalEndpointClient

namespace HalClient

/-- `GetData()`: returns `this.data` as-is (no copy); being a pure
projection, repeated calls trivially agree. -/
def GetData (c : HalClient) : JVal := c.data

/-- `GetLink(ref)`: `return this.links[ref]` — `none` is the TypeError on a
`null`/`undefined` link table. -/
def GetLink (c : HalClient) (ref : String) : Option JVal :=
  c.links.getProp ref

/-- `HasLink(ref)`: `this.links !== undefined && this.links[ref] !== undefined`.
Short-circuits to `false` on an undefined table; on a `null` table the
second conjunct's property access throws (`none`). -/
def HasLink (c : HalClient) (ref : String) : Option Bool :=
  if c.links.isUndef then some false
  else (c.links.getProp ref).map (fun v => !v.isUndef)

/-- `HasEmbed(name)`: `this.embeds !== undefined && this.embeds[name] !== undefined`. -/
def HasEmbed (c : HalClient) (name : String) : Option Bool :=
  if c.embeds.isUndef then some false
  else (c.embeds.getProp name).map (fun v => !v.isUndef)

end HalClient

/-- The state of an `Embed` instance: the relation name and `this.embeds`,
the raw-document list looked up as `this.embeds[name]` on the owning
client (so possibly `undefined`).  The stored `fetcher` is elided as in
`HalClient`. -/
structure Embed where
  name : String
  embeds : JVal

namespace HalClient

/-- `GetEmbed(name)`: `new Embed(name, this.embeds[name], this.fetcher)` —
the property access throws (`none`) when the client has no embedded map at
all (`this.embeds` is `undefined`, or `null`). -/
def GetEmbed (c : HalClient) (name : String) : Option Embed :=
  (c.embeds.getProp name).map (fun v => ⟨name, v⟩)

/-- `GetAllEmbeds()`: one `Embed` per own key of `this.embeds`, in
enumeration order. -/
def GetAllEmbeds (c : HalClient) : List Embed :=
  c.embeds.ownKeys.map (fun kv => ⟨kv.1, kv.2⟩)

end HalClient

namespace Embed

/-- The loop body of `GetAllClients` over the raw-document list: construct
one client per document in order.  Each construction strips the envelope
keys from its document in place, so the returned second component is the
document list as it stands afterwards (the constructed clients' `data`
objects).  If a construction throws (`null`/`undefined` document), the
documents already processed keep their mutation and the rest are untouched;
the thrown case is `none` in the first component. -/
def getAllClientsLoop : List JVal → Option (List HalClient) × List JVal
  | [] => (some [], [])
  | doc :: rest =>
    match HalEndpointClient.construct doc with
    | none => (none, doc :: rest)
    | some c =>
      ((getAllClientsLoop rest).1.map (fun cs => c :: cs),
       c.data :: (getAllClientsLoop rest).2)

/-- `Embed.GetAllClients()`: `for (let i = 0; i < this.embeds.length; ++i)`
pushing `new HalEndpointClient(this.embeds[i], this.fetcher)`.  Reading
`.length` of an `undefined`/`null` list throws (first component `none`);
a string has a `length` and indexes to its one-character substrings (which
are immutable, so the embed is unchanged); the remaining values have no
`length` we track (a plain object carrying its own `length` key never
occurs as an embed list), so `i < undefined` is false and the loop body
never runs.  The second component is the `Embed` as it stands after the
call (its raw documents mutated by the constructions, which alias them). -/
def GetAllClients (e : Embed) : Option (List HalClient) × Embed :=
  match e.embeds with
  | .undefined => (none, e)
  | .jnull => (none, e)
  | .arr docs =>
    ((getAllClientsLoop docs).1, { e with embeds := .arr (getAllClientsLoop docs).2 })
  | .str s =>
    ((getAllClientsLoop (s.data.map (fun ch => .str (String.singleton ch)))).1, e)
  | _ => (some [], e)

end Embed

/-- A `FormData` body: the flat list of appended (field name, value) pairs,
in append order.  `FormData.append` stringifies the value on the wire; the
model keeps the value itself. -/
abbrev FormData := List (String × JVal)

namespace HalEndpointClient

/-- The `constructedKey` of `jsonToFormData`: `parentKey + "." + key` when
a parent prefix exists, else the key itself. -/
def constructedKeyOf (parentKey : Option String) (key : String) : String :=
  match parentKey with
  | some p => p ++ "." ++ key
  | none => key

/-- The `for (var key in inJSON)` loop of `jsonToFormData` over the own
keys of `inJSON`, carrying the shared `form_data` accumulator and the
optional `parentKey`.  A value passing the recursion guard
`value && value.constructor === \x7b\x7d.constructor` (which holds exactly
for plain objects — see `truthy_and_isPlainObj` below) is recursed into
with the extended prefix, any other value is appended as-is. -/
def jsonToFormDataLoop : List (String × JVal) → FormData → Option String → FormData
  | [], form_data, _ => form_data
  | (key, value) :: rest, form_data, parentKey =>
    match value with
    | .obj fields =>
        jsonToFormDataLoop rest
          (jsonToFormDataLoop fields form_data (some (constructedKeyOf parentKey key)))
          parentKey
    | v => jsonToFormDataLoop rest (form_data ++ [(constructedKeyOf parentKey key, v)])
        parentKey

/-- `HalEndpointClient.jsonToFormData(inJSON, inFormData?, parentKey?)`:
starts from `inFormData || new FormData()` and runs the loop over
`inJSON`'s own enumerable keys. -/
def jsonToFormData (inJSON : JVal) (inFormData : Option FormData)
    (parentKey : Option String) : FormData :=
  jsonToFormDataLoop inJSON.ownKeys (inFormData.getD []) parentKey

/-- `HalEndpointClient.GetQueryLink(link, query)`.  `uriBuild` stands for
the external URI library composition `new Uri(link.href)` +
`setQueryFromObject(query)` + `build()`.  A `undefined` or `null` query
returns the original link itself (the very argument, no copy); otherwise a
fresh two-key link object is built with the rewritten href and the
original method.  `none` is the TypeError when `link.href` is read off a
`null`/`undefined` link. -/
def GetQueryLink (uriBuild : JVal → JVal → String) (link : JVal) (query : JVal) :
    Option JVal :=
  match query with
  | .undefined => some link
  | .jnull => some link
  | q =>
    match link.getProp "href", link.getProp "method" with
    | some href, some m => some (.obj [("href", .str (uriBuild href q)), ("method", m)])
    | _, _ => none

end HalEndpointClient

/-- The body of a pending request: none, `JSON.stringify(data)`, or a
multipart `FormData` built by `jsonToFormData`. -/
inductive ReqBody where
  | noBody
  | jsonStringified (data : JVal)
  | multipartForm (fd : FormData)

/-- The request a navigation operation hands to the transport when its
synchronous prefix succeeds: the (possibly query-rewritten) link it will
fetch, the request body, and the `Content-Type` override from
`LoadOptions` (the constant `Accept`/`bearer` headers are the same for
every request and are elided). -/
structure PendingRequest where
  link : JVal
  reqBody : ReqBody
  contentTypeHeader : Option String

namespace HalClient

open HalEndpointClient (GetQueryLink jsonToFormData jsonMimeType)

/-- `LoadLink(ref)`: guarded by `HasLink`, else a synchronous
`Cannot find ref` throw; on success delegates to
`Load(this.GetLink(ref), this.fetcher)` with no options. -/
def LoadLink (c : HalClient) (ref : String) : Except Failure PendingRequest :=
  match c.HasLink ref with
  | none => .error .typeError
  | some false => .error (.cannotFindRef ref)
  | some true =>
    match c.GetLink ref with
    | some link => .ok ⟨link, .noBody, none⟩
    | none => .error .typeError

/-- `LoadLinkWithQuery(ref, query)`: as `LoadLink`, with the link first
rewritten by `GetQueryLink`. -/
def LoadLinkWithQuery (uriBuild : JVal → JVal → String) (c : HalClient) (ref : String)
    (query : JVal) : Except Failure PendingRequest :=
  match c.HasLink ref with
  | none => .error .typeError
  | some false => .error (.cannotFindRef ref)
  | some true =>
    match c.GetLink ref with
    | none => .error .typeError
    | some link =>
      match GetQueryLink uriBuild link query with
      | some l => .ok ⟨l, .noBody, none⟩
      | none => .error .typeError

/-- `LoadLinkWithBody(ref, data)`: body `JSON.stringify(data)` with the
json content type. -/
def LoadLinkWithBody (c : HalClient) (ref : String) (data : JVal) :
    Except Failure PendingRequest :=
  match c.HasLink ref with
  | none => .error .typeError
  | some false => .error (.cannotFindRef ref)
  | some true =>
    match c.GetLink ref with
    | some link => .ok ⟨link, .jsonStringified data, some jsonMimeType⟩
    | none => .error .typeError

/-- `LoadLinkWithQueryAndBody(ref, query, data)`. -/
def LoadLinkWithQueryAndBody (uriBuild : JVal → JVal → String) (c : HalClient)
    (ref : String) (query : JVal) (data : JVal) : Except Failure PendingRequest :=
  match c.HasLink ref with
  | none => .error .typeError
  | some false => .error (.cannotFindRef ref)
  | some true =>
    match c.GetLink ref with
    | none => .error .typeError
    | some link =>
      match GetQueryLink uriBuild link query with
      | some l => .ok ⟨l, .jsonStringified data, some jsonMimeType⟩
      | none => .error .typeError

/-- `LoadLinkWithForm(ref, data)`: body `this.jsonToFormData(data)`, no
content-type override. -/
def LoadLinkWithForm (c : HalClient) (ref : String) (data : JVal) :
    Except Failure PendingRequest :=
  match c.HasLink ref with
  | none => .error .typeError
  | some false => .error (.cannotFindRef ref)
  | some true =>
    match c.GetLink ref with
    | some link => .ok ⟨link, .multipartForm (jsonToFormData data none none), none⟩
    | none => .error .typeError

/-- `LoadLinkWithQueryAndForm(ref, query, data)`. -/
def LoadLinkWithQueryAndForm (uriBuild : JVal → JVal → String) (c : HalClient)
    (ref : String) (query : JVal) (data : JVal) : Except Failure PendingRequest :=
  match c.HasLink ref with
  | none => .error .typeError
  | some false => .error (.cannotFindRef ref)
  | some true =>
    match c.GetLink ref with
    | none => .error .typeError
    | some link =>
      match GetQueryLink uriBuild link query with
      | some l => .ok ⟨l, .multipartForm (jsonToFormData data none none), none⟩
      | none => .error .typeError

/-- `LoadRawLink(ref)`: issues the same request as `LoadLink` but hands
back the raw response (the synchronous prefix is identical). -/
def LoadRawLink (c : HalClient) (ref : String) : Except Failure PendingRequest :=
  match c.HasLink ref with
  | none => .error .typeError
  | some false => .error (.cannotFindRef ref)
  | some true =>
    match c.GetLink ref with
    | some link => .ok ⟨link, .noBody, none⟩
    | none => .error .typeError

/-- `LoadRawLinkWithQuery(ref, query)`. -/
def LoadRawLinkWithQuery (uriBuild : JVal → JVal → String) (c : HalClient) (ref : String)
    (query : JVal) : Except Failure PendingRequest :=
  match c.HasLink ref with
  | none => .error .typeError
  | some false => .error (.cannotFindRef ref)
  | some true =>
    match c.GetLink ref with
    | none => .error .typeError
    | some link =>
      match GetQueryLink uriBuild link query with
      | some l => .ok ⟨l, .noBody, none⟩
      | none => .error .typeError

/-- `LoadRawLinkWithBody(ref, data)`. -/
def LoadRawLinkWithBody (c : HalClient) (ref : String) (data : JVal) :
    Except Failure PendingRequest :=
  match c.HasLink ref with
  | none => .error .typeError
  | some false => .error (.cannotFindRef ref)
  | some true =>
    match c.GetLink ref with
    | some link => .ok ⟨link, .jsonStringified data, some jsonMimeType⟩
    | none => .error .typeError

/-- `LoadRawLinkWithQueryAndBody(ref, query, data)`. -/
def LoadRawLinkWithQueryAndBody (uriBuild : JVal → JVal → String) (c : HalClient)
    (ref : String) (query : JVal) (data : JVal) : Except Failure PendingRequest :=
  match c.HasLink ref with
  | none => .error .typeError
  | some false => .error (.cannotFindRef ref)
  | some true =>
    match c.GetLink ref with
    | none => .error .typeError
    | some link =>
      match GetQueryLink uriBuild link query with
      | some l => .ok ⟨l, .jsonStringified data, some jsonMimeType⟩
      | none => .error .typeError

/-- `LoadRawLinkWithForm(ref, data)`. -/
def LoadRawLinkWithForm (c : HalClient) (ref : String) (data : JVal) :
    Except Failure PendingRequest :=
  match c.HasLink ref with
  | none => .error .typeError
  | some false => .error (.cannotFindRef ref)
  | some true =>
    match c.GetLink ref with
    | some link => .ok ⟨link, .multipartForm (jsonToFormData data none none), none⟩
    | none => .error .typeError

/-- `LoadRawLinkWithQueryAndForm(ref, query, data)`. -/
def LoadRawLinkWithQueryAndForm (uriBuild : JVal → JVal → String) (c : HalClient)
    (ref : String) (query : JVal) (data : JVal) : Except Failure PendingRequest :=
  match c.HasLink ref with
  | none => .error .typeError
  | some false => .error (.cannotFindRef ref)
  | some true =>
    match c.GetLink ref with
    | none => .error .typeError
    | some link =>
      match GetQueryLink uriBuild link query with
      | some l => .ok ⟨l, .multipartForm (jsonToFormData data none none), none⟩
      | none => .error .typeError

end HalClient

namespace HalError

/-- `HalError.hasValidationErrors()`: `this.errorData.errors !== undefined`.
`errorData` is the parsed server-error document stored by the constructor;
`none` is the (unreachable in practice) TypeError on a `null`/`undefined`
document. -/
def hasValidationErrors (errorData : JVal) : Option Bool :=
  (errorData.getProp "errors").map (fun e => !e.isUndef)

/-- `HalError.hasValidationError(name)`: when a field-error map exists,
`this.errorData.errors[name] !== undefined` (throwing if the map is
`null`); otherwise `false`. -/
def hasValidationError (errorData : JVal) (name : String) : Option Bool :=
  match hasValidationErrors errorData with
  | none => none
  | some false => some false
  | some true =>
    match errorData.getProp "errors" with
    | none => none
    | some errs => (errs.getProp name).map (fun v => !v.isUndef)

/-- `HalError.getValidationError(name)`: when a field-error map exists,
`this.errorData.errors[name]`; otherwise the function falls through and
returns `undefined`. -/
def getValidationError (errorData : JVal) (name : String) : Option JVal :=
  match hasValidationErrors errorData with
  | none => none
  | some false => some .undefined
  | some true =>
    match errorData.getProp "errors" with
    | none => none
    | some errs => errs.getProp name

end HalError

example : JVal.getProp (.obj [("a", .num 1)]) "a" = some (.num 1) := rfl

example : JVal.getProp .jnull "message" = none := rfl

example :
    HalEndpointClient.mimePrefixTest "application/json+halcyon; charset=utf-8"
      HalEndpointClient.halcyonJsonMimeType = true := by decide

example :
    HalEndpointClient.mimePrefixTest "application/json"
      HalEndpointClient.halcyonJsonMimeType = false := by decide

example :
    HalEndpointClient.mimePrefixTest "application/json+halcyon"
      HalEndpointClient.jsonMimeType = true := by decide

/-- The recursion guard of `jsonToFormData`,
`value && value.constructor === \x7b\x7d.constructor`, holds exactly for the
plain-object values: every plain object is truthy, and every other value
fails the constructor test.  This justifies branching on `isPlainObj`
alone in `jsonToFormDataLoop`. -/
theorem truthy_and_isPlainObj (v : JVal) : (v.truthy && v.isPlainObj) = v.isPlainObj := by
  cases v <;> simp [JVal.truthy, JVal.isPlainObj]

/-- C3: a successful (`ok`) response whose (present, non-empty) content-type
header does not match the halcyon media type by case-sensitive prefix makes
`parseResult` throw the "Unsupported response type" failure, whatever the
body is and whatever `JSON.parse` would have returned — in particular even
for the generic json media type, which is only accepted on failed
responses. -/
theorem parseResult_rejects_non_halcyon_success
    (jsonParse : String → Except Unit JVal) (response : Response) (data h : String)
    (hok : response.ok = true) (hct : response.contentType = some h) (hne : h ≠ "")
    (hmis : HalEndpointClient.mimePrefixTest h HalEndpointClient.halcyonJsonMimeType
      = false) :
    HalEndpointClient.parseResult jsonParse response data
      = .error (.unsupportedResponseType h) := by
  unfold HalEndpointClient.parseResult
  rw [hct]
  simp [hne, hok, hmis]

/-- C3 witness: a 200 response with content-type `application/json`
carrying the valid JSON body `"\x7b\x7d"` is still rejected as unsupported. -/
theorem parseResult_rejects_non_halcyon_success_witness :
    HalEndpointClient.parseResult (fun _ => .ok (JVal.obj []))
      ⟨true, 200, "OK", some "application/json", "\x7b\x7d"⟩ "\x7b\x7d"
      = .error (.unsupportedResponseType "application/json") :=
  parseResult_rejects_non_halcyon_success _ _ _ _ rfl rfl (by decide) (by decide)

/-- C9: `GetQueryLink` with an `undefined` or `null` query returns the
original link itself, unchanged (in the source it returns the very same
object, no copy); with any other query it builds a fresh link whose href is
the URI layer's rewrite and whose method is the original one. -/
theorem GetQueryLink_absent_query_identity
    (uriBuild : JVal → JVal → String) (link query : JVal) :
    ((query = .undefined ∨ query = .jnull) →
      HalEndpointClient.GetQueryLink uriBuild link query = some link) ∧
    (∀ href m, query ≠ .undefined → query ≠ .jnull →
      link.getProp "href" = some href → link.getProp "method" = some m →
      HalEndpointClient.GetQueryLink uriBuild link query
        = some (.obj [("href", .str (uriBuild href query)), ("method", m)])) := by
  constructor
  · rintro (rfl | rfl) <;> rfl
  · intro href m h1 h2 h3 h4
    cases query <;> simp_all [HalEndpointClient.GetQueryLink]

/-- C9 witness: on the link `/a` with method `GET`, the absent query leaves
the link untouched and a present query rewrites the href through the URI
layer. -/
theorem GetQueryLink_absent_query_identity_witness :
    HalEndpointClient.GetQueryLink (fun _ _ => "/a?y=2")
      (.obj [("href", .str "/a"), ("method", .str "GET")]) .undefined
      = some (.obj [("href", .str "/a"), ("method", .str "GET")]) ∧
    HalEndpointClient.GetQueryLink (fun _ _ => "/a?y=2")
      (.obj [("href", .str "/a"), ("method", .str "GET")]) .jnull
      = some (.obj [("href", .str "/a"), ("method", .str "GET")]) ∧
    HalEndpointClient.GetQueryLink (fun _ _ => "/a?y=2")
      (.obj [("href", .str "/a"), ("method", .str "GET")]) (.obj [("y", .num 2)])
      = some (.obj [("href", .str "/a?y=2"), ("method", .str "GET")]) :=
  ⟨(GetQueryLink_absent_query_identity _ _ _).1 (Or.inl rfl),
   (GetQueryLink_absent_query_identity _ _ _).1 (Or.inr rfl),
   (GetQueryLink_absent_query_identity _ _ _).2 (.str "/a") (.str "GET")
     (by simp) (by simp) rfl rfl⟩

/-- C10: a successful response with a halcyon content-type and an empty
body parses to the `null` document without error, but `processResult` then
fails with a TypeError instead of producing a client, because the
constructor dereferences `data._embedded` on `null` — the success path can
never return a client with empty data. -/
theorem processResult_empty_success_body_fails
    (jsonParse : String → Except Unit JVal) (response : Response) (h : String)
    (hok : response.ok = true) (hct : response.contentType = some h)
    (hmime : HalEndpointClient.mimePrefixTest h HalEndpointClient.halcyonJsonMimeType
      = true)
    (hbody : response.body = "") :
    HalEndpointClient.parseResult jsonParse response response.body = .ok .jnull ∧
    HalEndpointClient.processResult jsonParse response = .error .typeError := by
  have hne : h ≠ "" := by
    intro he; rw [he] at hmime
    exact absurd hmime (by decide)
  have hp : HalEndpointClient.parseResult jsonParse response response.body = .ok .jnull := by
    unfold HalEndpointClient.parseResult
    rw [hct, hbody]
    simp [hne, hmime]
  refine ⟨hp, ?_⟩
  unfold HalEndpointClient.processResult
  rw [hp]
  simp [hok, HalEndpointClient.construct, JVal.getProp]

/-- C10 witness: a 200 halcyon response with the empty body. -/
theorem processResult_empty_success_body_fails_witness :
    HalEndpointClient.parseResult (fun _ => .error ())
      ⟨true, 200, "OK", some "application/json+halcyon", ""⟩ "" = .ok .jnull ∧
    HalEndpointClient.processResult (fun _ => .error ())
      ⟨true, 200, "OK", some "application/json+halcyon", ""⟩ = .error .typeError :=
  processResult_empty_success_body_fails _ _ _ rfl rfl (by decide) rfl

/-- Step lemma: the loop on an exhausted key list returns the accumulated
form data. -/
theorem jsonToFormDataLoop_nil (form_data : FormData) (parentKey : Option String) :
    HalEndpointClient.jsonToFormDataLoop [] form_data parentKey = form_data := by
  rw [HalEndpointClient.jsonToFormDataLoop.eq_def]

/-- Step lemma: a plain-object value is recursed into under the extended
prefix before the remaining keys are processed. -/
theorem jsonToFormDataLoop_obj (key : String) (fields : List (String × JVal))
    (rest : List (String × JVal)) (form_data : FormData) (parentKey : Option String) :
    HalEndpointClient.jsonToFormDataLoop ((key, .obj fields) :: rest) form_data parentKey
      = HalEndpointClient.jsonToFormDataLoop rest
          (HalEndpointClient.jsonToFormDataLoop fields form_data
            (some (HalEndpointClient.constructedKeyOf parentKey key)))
          parentKey := by
  rw [HalEndpointClient.jsonToFormDataLoop.eq_def]

/-- Step lemma: any value that is not a plain object is appended as a
single field under its constructed key. -/
theorem jsonToFormDataLoop_append (key : String) (value : JVal)
    (rest : List (String × JVal)) (form_data : FormData) (parentKey : Option String)
    (hv : value.isPlainObj = false) :
    HalEndpointClient.jsonToFormDataLoop ((key, value) :: rest) form_data parentKey
      = HalEndpointClient.jsonToFormDataLoop rest
          (form_data ++ [(HalEndpointClient.constructedKeyOf parentKey key, value)])
          parentKey := by
  rw [HalEndpointClient.jsonToFormDataLoop.eq_def]
  cases value <;> simp_all [JVal.isPlainObj]

/-- C7: the multipart encoder appends, for a key `key` with a value that is
not a plain object (arrays, dates/blobs/foreign objects, primitives —
everything whose own constructor is not the bare object constructor), one
field named `parentKey + "." + key` (or `key` at the top level) holding the
value as-is; it recurses exactly on plain-object values, extending the
prefix; and on `\x7ba: \x7bb: 1, c: "s"\x7d, d: [1,2]\x7d` it produces the
fields `a.b`, `a.c` and `d`, the array appended opaquely, never split. -/
theorem jsonToFormData_flattening (parentKey : Option String) (key : String)
    (value : JVal) (form_data : FormData) :
    (value.isPlainObj = false →
      HalEndpointClient.jsonToFormDataLoop [(key, value)] form_data parentKey
        = form_data ++ [(HalEndpointClient.constructedKeyOf parentKey key, value)]) ∧
    (∀ fields, value = .obj fields →
      HalEndpointClient.jsonToFormDataLoop [(key, value)] form_data parentKey
        = HalEndpointClient.jsonToFormDataLoop fields form_data
            (some (HalEndpointClient.constructedKeyOf parentKey key))) ∧
    HalEndpointClient.jsonToFormData
        (.obj [("a", .obj [("b", .num 1), ("c", .str "s")]),
               ("d", .arr [.num 1, .num 2])]) none none
      = [("a.b", .num 1), ("a.c", .str "s"), ("d", .arr [.num 1, .num 2])] := by
  refine ⟨?_, ?_, ?_⟩
  · intro hv
    rw [jsonToFormDataLoop_append _ _ _ _ _ hv, jsonToFormDataLoop_nil]
  · rintro fields rfl
    rw [jsonToFormDataLoop_obj, jsonToFormDataLoop_nil]
  · show HalEndpointClient.jsonToFormDataLoop
        [("a", .obj [("b", .num 1), ("c", .str "s")]), ("d", .arr [.num 1, .num 2])]
        [] none = _
    simp only [jsonToFormDataLoop_obj, jsonToFormDataLoop_append, jsonToFormDataLoop_nil,
      JVal.isPlainObj]
    rfl

/-- C7 witness: a top-level array value is appended as one opaque field,
and the worked example flattens as stated. -/
theorem jsonToFormData_flattening_witness :
    HalEndpointClient.jsonToFormDataLoop [("d", .arr [.num 1, .num 2])] [] none
      = [("d", JVal.arr [.num 1, .num 2])] ∧
    HalEndpointClient.jsonToFormData
        (.obj [("a", .obj [("b", .num 1), ("c", .str "s")]),
               ("d", .arr [.num 1, .num 2])]) none none
      = [("a.b", .num 1), ("a.c", .str "s"), ("d", .arr [.num 1, .num 2])] :=
  ⟨(jsonToFormData_flattening none "d" (.arr [.num 1, .num 2]) []).1 rfl,
   (jsonToFormData_flattening none "d" (.arr [.num 1, .num 2]) []).2.2⟩

/-- Deleting `_embedded` and then `_links` from an object's field list is
one filter keeping every field named neither. -/
theorem filter_env_keys (fields : List (String × JVal)) :
    (fields.filter (fun kv => kv.1 ≠ "_embedded")).filter (fun kv => kv.1 ≠ "_links")
      = fields.filter (fun kv => kv.1 ≠ "_links" && kv.1 ≠ "_embedded") := by
  induction fields with
  | nil => rfl
  | cons kv rest ih =>
    by_cases h1 : kv.1 = "_links" <;> by_cases h2 : kv.1 = "_embedded" <;>
      simp [List.filter_cons, h1, h2, ih]

/-- C6: for a client constructed from a parsed object document, `GetData()`
is that document with the `_links` and `_embedded` fields removed and every
other field unchanged, in order; in particular neither envelope key ever
occurs in the returned payload.  (In the source the removal happens by
`delete` on the original object itself, so the payload is the same object
identity on every call — `GetData` here is a pure projection of it.) -/
theorem GetData_strips_envelope (fields : List (String × JVal)) (c : HalClient)
    (hc : HalEndpointClient.construct (.obj fields) = some c) :
    c.GetData = .obj (fields.filter (fun kv => kv.1 ≠ "_links" && kv.1 ≠ "_embedded")) ∧
    (∀ kv, kv ∈ fields.filter (fun kv => kv.1 ≠ "_links" && kv.1 ≠ "_embedded") →
      kv.1 ≠ "_links" ∧ kv.1 ≠ "_embedded") := by
  have hdata : c.data = .obj ((fields.filter (fun kv => kv.1 ≠ "_embedded")).filter
      (fun kv => kv.1 ≠ "_links")) := by
    simp only [HalEndpointClient.construct, JVal.getProp, JVal.deleteProp,
      Option.some.injEq] at hc
    subst hc
    rfl
  constructor
  · rw [HalClient.GetData, hdata, filter_env_keys]
  · intro kv hkv
    have h := (List.mem_filter.mp hkv).2
    simp at h
    exact h

/-- C6 witness: a document with a title, links and embeds keeps only the
title. -/
theorem GetData_strips_envelope_witness :
    HalClient.GetData ⟨.obj [], .obj [], .obj [("title", .str "t")]⟩
      = .obj ([("title", JVal.str "t"), ("_links", JVal.obj []), ("_embedded", JVal.obj [])].filter
          (fun kv => kv.1 ≠ "_links" && kv.1 ≠ "_embedded")) :=
  (GetData_strips_envelope
    [("title", .str "t"), ("_links", .obj []), ("_embedded", .obj [])]
    ⟨.obj [], .obj [], .obj [("title", .str "t")]⟩ rfl).1

/-- C5: for a relation name absent from a client's link table — including
the case of an entirely absent (`undefined`) table — `HasLink` returns
`false` without throwing, and every navigation operation (`LoadLink`, the
query/body/form variants and all `Raw` variants) throws the synchronous
`Cannot find ref` failure before any request is issued (so the failure is
not a rejected future). -/
theorem unknown_rel_is_synchronous_failure (c : HalClient) (r : String)
    (uriBuild : JVal → JVal → String) (query data : JVal)
    (habs : c.links = .undefined ∨ c.links.getProp r = some .undefined) :
    c.HasLink r = some false ∧
    c.LoadLink r = .error (.cannotFindRef r) ∧
    c.LoadLinkWithQuery uriBuild r query = .error (.cannotFindRef r) ∧
    c.LoadLinkWithBody r data = .error (.cannotFindRef r) ∧
    c.LoadLinkWithQueryAndBody uriBuild r query data = .error (.cannotFindRef r) ∧
    c.LoadLinkWithForm r data = .error (.cannotFindRef r) ∧
    c.LoadLinkWithQueryAndForm uriBuild r query data = .error (.cannotFindRef r) ∧
    c.LoadRawLink r = .error (.cannotFindRef r) ∧
    c.LoadRawLinkWithQuery uriBuild r query = .error (.cannotFindRef r) ∧
    c.LoadRawLinkWithBody r data = .error (.cannotFindRef r) ∧
    c.LoadRawLinkWithQueryAndBody uriBuild r query data = .error (.cannotFindRef r) ∧
    c.LoadRawLinkWithForm r data = .error (.cannotFindRef r) ∧
    c.LoadRawLinkWithQueryAndForm uriBuild r query data = .error (.cannotFindRef r) := by
  have hfalse : c.HasLink r = some false := by
    rcases habs with h | h
    · simp [HalClient.HasLink, h, JVal.isUndef]
    · by_cases hu : c.links.isUndef = true
      · simp [HalClient.HasLink, hu]
      · simp only [Bool.not_eq_true] at hu
        simp [HalClient.HasLink, hu, h, JVal.isUndef]
  refine ⟨hfalse, ?_, ?_, ?_, ?_, ?_, ?_, ?_, ?_, ?_, ?_, ?_, ?_⟩ <;>
    simp [HalClient.LoadLink, HalClient.LoadLinkWithQuery, HalClient.LoadLinkWithBody,
      HalClient.LoadLinkWithQueryAndBody, HalClient.LoadLinkWithForm,
      HalClient.LoadLinkWithQueryAndForm, HalClient.LoadRawLink,
      HalClient.LoadRawLinkWithQuery, HalClient.LoadRawLinkWithBody,
      HalClient.LoadRawLinkWithQueryAndBody, HalClient.LoadRawLinkWithForm,
      HalClient.LoadRawLinkWithQueryAndForm, hfalse]

/-- C5 witness: a client with no link table at all, asked for the relation
`missing`. -/
theorem unknown_rel_is_synchronous_failure_witness :
    HalClient.HasLink ⟨.undefined, .undefined, .obj []⟩ "missing" = some false ∧
    HalClient.LoadLink ⟨.undefined, .undefined, .obj []⟩ "missing"
      = .error (.cannotFindRef "missing") ∧
    HalClient.LoadLinkWithForm ⟨.undefined, .undefined, .obj []⟩ "missing" .jnull
      = .error (.cannotFindRef "missing") :=
  have h := unknown_rel_is_synchronous_failure ⟨.undefined, .undefined, .obj []⟩ "missing"
    (fun _ _ => "") .jnull .jnull (Or.inl rfl)
  ⟨h.1, h.2.1, h.2.2.2.2.2.1⟩

/-- C1 counterexample: a failed (`ok == false`) 500 response with
content-type `text/plain` — matching neither media-type prefix — makes the
current pipeline (`parseResult` inside `processResult`) surface the
"Unsupported response type" failure, not the Generic Transport Error the
claim demands. -/
theorem c1_failed_unmatched_type_cex :
    HalEndpointClient.processResult (fun _ => .error ())
      ⟨false, 500, "Server Error", some "text/plain", "oops"⟩
      = .error (.unsupportedResponseType "text/plain") ∧
    (Except.error (.unsupportedResponseType "text/plain") : Except Failure HalClient)
      ≠ .error (.genericError 500 "Server Error") := by
  refine ⟨rfl, ?_⟩
  simp

/-- C1 amended: for every failed response whose (present, non-empty)
content-type header matches neither the halcyon nor the generic json
media-type prefix, the current pipeline throws the "Unsupported response
type" failure carrying that header and never reaches the Generic Transport
Error; the second embedded version of `parseResult` behaves as the original
claim states, emitting the Generic Transport Error with the status code and
status text. -/
theorem failed_unmatched_type_is_unsupported
    (jsonParse : String → Except Unit JVal) (response : Response) (h : String)
    (hok : response.ok = false) (hct : response.contentType = some h) (hne : h ≠ "")
    (hm1 : HalEndpointClient.mimePrefixTest h HalEndpointClient.halcyonJsonMimeType
      = false)
    (hm2 : HalEndpointClient.mimePrefixTest h HalEndpointClient.jsonMimeType = false) :
    HalEndpointClient.processResult jsonParse response
      = .error (.unsupportedResponseType h) ∧
    HalEndpointClient.processResult2 jsonParse response
      = .error (.genericError response.status response.statusText) := by
  constructor
  · unfold HalEndpointClient.processResult HalEndpointClient.parseResult
    rw [hct]
    simp [hne, hok, hm1, hm2]
  · unfold HalEndpointClient.processResult2 HalEndpointClient.parseResult2
    rw [hct]
    simp [hne, hok, hm1, hm2]

/-- C1 amended witness: the concrete `text/plain` 500 response. -/
theorem failed_unmatched_type_is_unsupported_witness :
    HalEndpointClient.processResult (fun _ => .ok (JVal.obj []))
      ⟨false, 500, "Server Error", some "text/plain", "oops"⟩
      = .error (.unsupportedResponseType "text/plain") ∧
    HalEndpointClient.processResult2 (fun _ => .ok (JVal.obj []))
      ⟨false, 500, "Server Error", some "text/plain", "oops"⟩
      = .error (.genericError 500 "Server Error") :=
  failed_unmatched_type_is_unsupported _ _ _ rfl rfl (by decide) (by decide) (by decide)

/-- C4 counterexample: a failed `application/json` response with an empty
body parses to the `null` document, and `processResult` then throws a
TypeError dereferencing `null.message` — neither a Hal Error nor the
Generic Transport Error the claim demands for a parsed document without a
`message` field. -/
theorem c4_null_error_body_cex :
    HalEndpointClient.parseResult (fun _ => .error ())
      ⟨false, 400, "Bad Request", some "application/json", ""⟩ "" = .ok .jnull ∧
    HalEndpointClient.processResult (fun _ => .error ())
      ⟨false, 400, "Bad Request", some "application/json", ""⟩ = .error .typeError ∧
    (Except.error Failure.typeError : Except Failure HalClient)
      ≠ .error (.genericError 400 "Bad Request") := by
  refine ⟨rfl, rfl, ?_⟩
  simp

/-- C4 amended: for every failed response whose body parsed to a document
on which the `message` lookup does not itself throw (every document except
`null`): a defined `message` yields the Hal Error carrying the whole parsed
document (with its optional field-error map) and the numeric status code,
and an undefined `message` yields the Generic Transport Error with status
code and status text; on the `null` document the lookup throws a TypeError
instead. -/
theorem processResult_error_classification
    (jsonParse : String → Except Unit JVal) (response : Response) (doc m : JVal)
    (hok : response.ok = false)
    (hp : HalEndpointClient.parseResult jsonParse response response.body = .ok doc)
    (hm : doc.getProp "message" = some m) :
    (m.isUndef = false →
      HalEndpointClient.processResult jsonParse response
        = .error (.halError doc response.status)) ∧
    (m.isUndef = true →
      HalEndpointClient.processResult jsonParse response
        = .error (.genericError response.status response.statusText)) ∧
    (doc = .jnull →
      HalEndpointClient.processResult jsonParse response = .error .typeError) := by
  refine ⟨?_, ?_, ?_⟩
  · intro hmu
    unfold HalEndpointClient.processResult
    rw [hp]
    simp [hok, hm, hmu]
  · intro hmu
    unfold HalEndpointClient.processResult
    rw [hp]
    simp [hok, hm, hmu]
  · rintro rfl
    simp [JVal.getProp] at hm

/-- C4 amended witness: the spec's worked example — body
`\x7b"message":"bad","errors":\x7b"name":"required"\x7d\x7d` on a failed 400
response yields the Hal Error, on which `hasValidationError("name")` is
`true` and `getValidationError("missing")` is `undefined`. -/
theorem processResult_error_classification_witness :
    HalEndpointClient.processResult
      (fun _ => .ok (.obj [("message", .str "bad"),
                           ("errors", .obj [("name", .str "required")])]))
      ⟨false, 400, "Bad Request", some "application/json", "x"⟩
      = .error (.halError (.obj [("message", .str "bad"),
                                 ("errors", .obj [("name", .str "required")])]) 400) ∧
    HalError.hasValidationError
      (.obj [("message", .str "bad"), ("errors", .obj [("name", .str "required")])])
      "name" = some true ∧
    HalError.getValidationError
      (.obj [("message", .str "bad"), ("errors", .obj [("name", .str "required")])])
      "missing" = some .undefined :=
  ⟨(processResult_error_classification
      (fun _ => .ok (.obj [("message", .str "bad"),
                           ("errors", .obj [("name", .str "required")])]))
      ⟨false, 400, "Bad Request", some "application/json", "x"⟩
      (.obj [("message", .str "bad"), ("errors", .obj [("name", .str "required")])])
      (.str "bad") rfl rfl rfl).1 rfl, rfl, rfl⟩

/-- C8 counterexample: a client built from a document without `_embedded`
stores `undefined` as its embedded map, and `GetEmbed` on it throws a
TypeError (reading `this.embeds[name]` off `undefined`) instead of
returning an Embed Collection wrapper. -/
theorem c8_getEmbed_without_map_cex :
    HalEndpointClient.construct (.obj [("x", .num 1)])
      = some ⟨.undefined, .undefined, .obj [("x", .num 1)]⟩ ∧
    HalClient.GetEmbed ⟨.undefined, .undefined, .obj [("x", .num 1)]⟩ "items" = none :=
  ⟨rfl, rfl⟩

/-- C8 amended: when the client has an embedded map (an object),
`GetEmbed(name)` returns a wrapper without failing even for an absent
`name` (the wrapper then holds `undefined` as its document list); when the
client has no embedded map at all, `GetEmbed` itself throws a TypeError;
and `GetAllClients` on a wrapper over an `undefined` document list throws a
TypeError (reading `.length` of `undefined`) rather than returning a
sequence. -/
theorem getEmbed_absent_amended (c : HalClient) (name : String) (e : Embed) :
    (∀ fields, c.embeds = .obj fields →
      c.GetEmbed name = some ⟨name, (c.embeds.getProp name).getD .undefined⟩) ∧
    (c.embeds = .undefined → c.GetEmbed name = none) ∧
    (e.embeds = .undefined → (e.GetAllClients).1 = none) := by
  refine ⟨?_, ?_, ?_⟩
  · intro fields h
    simp [HalClient.GetEmbed, h, JVal.getProp]
  · intro h
    simp [HalClient.GetEmbed, h, JVal.getProp]
  · intro h
    simp [Embed.GetAllClients, h]

/-- C8 amended witness: an absent relation on a present map yields a
wrapper over `undefined`; a missing map makes `GetEmbed` throw; iterating a
wrapper over `undefined` throws. -/
theorem getEmbed_absent_amended_witness :
    HalClient.GetEmbed ⟨.obj [("kids", .arr [])], .undefined, .obj []⟩ "other"
      = some ⟨"other", ((JVal.obj [("kids", JVal.arr [])]).getProp "other").getD .undefined⟩ ∧
    HalClient.GetEmbed ⟨.undefined, .undefined, .obj []⟩ "kids" = none ∧
    (Embed.GetAllClients ⟨"kids", .undefined⟩).1 = none :=
  ⟨(getEmbed_absent_amended ⟨.obj [("kids", .arr [])], .undefined, .obj []⟩ "other"
      ⟨"kids", .undefined⟩).1 [("kids", .arr [])] rfl,
   (getEmbed_absent_amended ⟨.undefined, .undefined, .obj []⟩ "kids" ⟨"kids", .undefined⟩).2.1 rfl,
   (getEmbed_absent_amended ⟨.undefined, .undefined, .obj []⟩ "kids" ⟨"kids", .undefined⟩).2.2 rfl⟩

/-- What the constructor computes on an object document, spelled out: the
embeds are the value found under `_embedded`, the links the value found
under `_links` after the first deletion, and the data the object with both
keys deleted. -/
theorem construct_obj (fields : List (String × JVal)) :
    HalEndpointClient.construct (.obj fields) = some
      ⟨match fields.find? (fun kv => kv.1 = "_embedded") with
        | some kv => kv.2
        | none => .undefined,
       match (fields.filter (fun kv => kv.1 ≠ "_embedded")).find?
           (fun kv => kv.1 = "_links") with
        | some kv => kv.2
        | none => .undefined,
       .obj ((fields.filter (fun kv => kv.1 ≠ "_embedded")).filter
           (fun kv => kv.1 ≠ "_links"))⟩ := rfl

/-- Reconstructing a client from an already-stripped document strips
nothing further: the envelope keys are gone (or the document is not an
object at all), so the new client carries `undefined` links and embeds and
the same domain data. -/
theorem construct_data_stable (doc : JVal) (c : HalClient)
    (h : HalEndpointClient.construct doc = some c) :
    HalEndpointClient.construct c.data = some ⟨.undefined, .undefined, c.data⟩ := by
  cases doc with
  | undefined => simp [HalEndpointClient.construct, JVal.getProp] at h
  | jnull => simp [HalEndpointClient.construct, JVal.getProp] at h
  | obj fields =>
    simp only [HalEndpointClient.construct, JVal.getProp, JVal.deleteProp,
      Option.some.injEq] at h
    subst h
    have hmem : ∀ kv ∈ (fields.filter (fun kv => kv.1 ≠ "_embedded")).filter
        (fun kv => kv.1 ≠ "_links"), kv.1 ≠ "_embedded" ∧ kv.1 ≠ "_links" := by
      intro kv hkv
      constructor
      · simpa using List.of_mem_filter (List.mem_of_mem_filter hkv)
      · simpa using List.of_mem_filter hkv
    have hfe : ((fields.filter (fun kv => kv.1 ≠ "_embedded")).filter
        (fun kv => kv.1 ≠ "_links")).find? (fun kv => kv.1 = "_embedded") = none := by
      rw [List.find?_eq_none]
      intro kv hkv
      simpa using (hmem kv hkv).1
    have hse : ((fields.filter (fun kv => kv.1 ≠ "_embedded")).filter
        (fun kv => kv.1 ≠ "_links")).filter (fun kv => kv.1 ≠ "_embedded")
        = (fields.filter (fun kv => kv.1 ≠ "_embedded")).filter
            (fun kv => kv.1 ≠ "_links") := by
      rw [List.filter_eq_self]
      intro kv hkv
      simpa using (hmem kv hkv).1
    have hfl : ((fields.filter (fun kv => kv.1 ≠ "_embedded")).filter
        (fun kv => kv.1 ≠ "_links")).find? (fun kv => kv.1 = "_links") = none := by
      rw [List.find?_eq_none]
      intro kv hkv
      simpa using (hmem kv hkv).2
    have hsl : ((fields.filter (fun kv => kv.1 ≠ "_embedded")).filter
        (fun kv => kv.1 ≠ "_links")).filter (fun kv => kv.1 ≠ "_links")
        = (fields.filter (fun kv => kv.1 ≠ "_embedded")).filter
            (fun kv => kv.1 ≠ "_links") := by
      rw [List.filter_eq_self]
      intro kv hkv
      simpa using (hmem kv hkv).2
    show HalEndpointClient.construct
        (.obj ((fields.filter (fun kv => kv.1 ≠ "_embedded")).filter
          (fun kv => kv.1 ≠ "_links"))) = _
    rw [construct_obj, hfe, hse, hfl, hsl]
  | bool b =>
    simp only [HalEndpointClient.construct, JVal.getProp, JVal.deleteProp,
      Option.some.injEq] at h
    subst h
    rfl
  | num n =>
    simp only [HalEndpointClient.construct, JVal.getProp, JVal.deleteProp,
      Option.some.injEq] at h
    subst h
    rfl
  | str s =>
    simp only [HalEndpointClient.construct, JVal.getProp, JVal.deleteProp,
      Option.some.injEq] at h
    subst h
    rfl
  | arr elems =>
    simp only [HalEndpointClient.construct, JVal.getProp, JVal.deleteProp,
      Option.some.injEq] at h
    subst h
    rfl
  | foreign tag =>
    simp only [HalEndpointClient.construct, JVal.getProp, JVal.deleteProp,
      Option.some.injEq] at h
    subst h
    rfl

/-- One pass of the embed loop, and what a second pass over the mutated
documents observes: a successful pass yields one client per document in
source order; it leaves the document list pointing at the clients' stripped
`data` objects; and a second pass over those yields clients with
`undefined` links and embeds but the same `data`. -/
theorem getAllClientsLoop_repeat (docs : List JVal) (cs : List HalClient)
    (h : (Embed.getAllClientsLoop docs).1 = some cs) :
    cs.length = docs.length ∧
    (Embed.getAllClientsLoop docs).2 = cs.map (fun c => c.data) ∧
    (Embed.getAllClientsLoop (cs.map (fun c => c.data))).1
      = some (cs.map (fun c => HalClient.mk .undefined .undefined c.data)) ∧
    ∀ i (hi : i < docs.length) (hj : i < cs.length),
      HalEndpointClient.construct (docs.get ⟨i, hi⟩) = some (cs.get ⟨i, hj⟩) := by
  induction docs generalizing cs with
  | nil =>
    simp only [Embed.getAllClientsLoop, Option.some.injEq] at h
    subst h
    refine ⟨rfl, rfl, rfl, ?_⟩
    intro i hi
    exact absurd hi (by simp)
  | cons doc rest ih =>
    rw [Embed.getAllClientsLoop] at h
    cases hcd : HalEndpointClient.construct doc with
    | none => rw [hcd] at h; simp at h
    | some c =>
      rw [hcd] at h
      simp only [Option.map_eq_some'] at h
      obtain ⟨cs1, hr, hcs⟩ := h
      subst hcs
      obtain ⟨ihlen, ihsnd, ihrep, ihidx⟩ := ih cs1 hr
      refine ⟨by simp [ihlen], ?_, ?_, ?_⟩
      · rw [Embed.getAllClientsLoop, hcd]
        simp [ihsnd]
      · have hc2 := construct_data_stable doc c hcd
        simp only [List.map_cons]
        rw [Embed.getAllClientsLoop, hc2]
        simp [ihrep]
      · intro i hi hj
        cases i with
        | zero => simpa using hcd
        | succ k =>
          have hk : k < rest.length := by simpa using hi
          have hk2 : k < cs1.length := by simpa using hj
          simpa using ihidx k hk hk2

/-- C2 counterexample: over one raw document that carries a `_links` table,
the first `GetAllClients()` returns a client holding that table, but the
construction deleted the key from the shared raw document, so the second
`GetAllClients()` returns a client with `undefined` links — the two
sequences are not structurally equal. -/
theorem c2_second_call_differs_cex :
    (Embed.GetAllClients ⟨"kids",
        .arr [.obj [("_links", .obj [("self", .str "/a")]), ("x", .num 1)]]⟩).1
      = some [⟨.undefined, .obj [("self", .str "/a")], .obj [("x", .num 1)]⟩] ∧
    ((Embed.GetAllClients ⟨"kids",
        .arr [.obj [("_links", .obj [("self", .str "/a")]), ("x", .num 1)]]⟩).2).GetAllClients.1
      = some [⟨.undefined, .undefined, .obj [("x", .num 1)]⟩] ∧
    ([⟨.undefined, .obj [("self", .str "/a")], .obj [("x", .num 1)]⟩] : List HalClient)
      ≠ [⟨.undefined, .undefined, .obj [("x", .num 1)]⟩] := by
  refine ⟨rfl, rfl, ?_⟩
  simp

/-- C2 amended: a successful `GetAllClients()` over `n` raw documents
produces one freshly constructed client per document in source order
(`n` of them); but because each construction deletes `_links` and
`_embedded` from its raw document in place and the Embed Collection aliases
those documents, a second call observes the stripped documents: it again
returns a sequence of the same length with the same domain data per
element, whose link tables and embedded maps are all `undefined`.  The two
sequences are structurally equal only when no raw document carried either
envelope key (reference distinctness — each call allocating fresh client
objects via `new` — is a heap-identity property that the value-level model
does not express). -/
theorem getAllClients_twice_amended (e : Embed) (docs : List JVal) (cs : List HalClient)
    (he : e.embeds = .arr docs)
    (h1 : (e.GetAllClients).1 = some cs) :
    cs.length = docs.length ∧
    (∀ i (hi : i < docs.length) (hj : i < cs.length),
      HalEndpointClient.construct (docs.get ⟨i, hi⟩) = some (cs.get ⟨i, hj⟩)) ∧
    ((e.GetAllClients).2).GetAllClients.1
      = some (cs.map (fun c => HalClient.mk .undefined .undefined c.data)) ∧
    (cs.map (fun c => HalClient.mk .undefined .undefined c.data)).length = cs.length := by
  have hglue : (Embed.getAllClientsLoop docs).1 = some cs := by
    simpa [Embed.GetAllClients, he] using h1
  obtain ⟨hlen, hsnd, hrep, hidx⟩ := getAllClientsLoop_repeat docs cs hglue
  refine ⟨hlen, hidx, ?_, by simp⟩
  simp [Embed.GetAllClients, he, hsnd, hrep]

/-- C2 amended witness: the one-document collection from the
counterexample — the second call yields the same length and data with
`undefined` envelope. -/
theorem getAllClients_twice_amended_witness :
    ((Embed.GetAllClients ⟨"kids",
        .arr [.obj [("_links", .obj [("self", .str "/a")]), ("x", .num 1)]]⟩).2).GetAllClients.1
      = some (([⟨.undefined, .obj [("self", .str "/a")], .obj [("x", .num 1)]⟩] :
            List HalClient).map
          (fun c => HalClient.mk .undefined .undefined c.data)) :=
  (getAllClients_twice_amended
    ⟨"kids", .arr [.obj [("_links", .obj [("self", .str "/a")]), ("x", .num 1)]]⟩
    [.obj [("_links", .obj [("self", .str "/a")]), ("x", .num 1)]]
    [⟨.undefined, .obj [("self", .str "/a")], .obj [("x", .num 1)]⟩] rfl rfl).2.2.1
